import Mathlib

/-!
# grpc-mock: the mock resolution engine of `main.go`

A shallow embedding of `mapMock`, `mockInterceptor` and `LoadMocks` together with
the library calls they are built from:

* Go strings are `String`; the byte-level functions `strings.TrimPrefix`,
  `strings.TrimSuffix` and `filepath.Ext` are written over the character list
  (for valid UTF-8 a byte prefix is a character prefix, and the bytes `.` and `/`
  never occur inside a multi-byte character).
* A Go `map[string]T` is an association list read by first match (`mapIndex`) and
  written by `mapAssign`; a nil map is `none`.
* Go's `(value, error)` results are pairs of options, `none` standing for `nil`.
* `reflect.DeepEqual`, `structs.Map` (github.com/fatih/structs) are embedded as
  functions; `mapstructure.Decode`, the file system and `encoding/json` are
  parameters of the functions that call them.
-/

namespace GrpcMock

/-! ## Dynamic values -/

/-- A Go value held in an `interface{}`: what `encoding/json` decodes into
`interface{}` (nil, bool, float64, string, `[]interface{}`, `map[string]interface{}`)
and what a struct field of scalar type contributes to `structs.Map`.
Floating-point payloads are IEEE-754 bit patterns. -/
inductive Value where
  | nil
  | bool (b : Bool)
  | string (s : String)
  | int32 (n : Int)
  | int64 (n : Int)
  | uint32 (n : Nat)
  | uint64 (n : Nat)
  | float32 (bits : Nat)
  | float64 (bits : Nat)
  | slice (xs : List Value)
  | map (kvs : List (String × Value))

/-- A non-nil `map[string]interface{}`. -/
abbrev Fields := List (String × Value)

/-- Two-result map read `v, ok := m[k]`. -/
def mapIndex {α : Type} : List (String × α) → String → Option α
  | [], _ => none
  | (k', v) :: rest, k => if k' = k then some v else mapIndex rest k

/-- Map write `m[k] = v`: replaces the value of an existing key, adds a new key otherwise. -/
def mapAssign {α : Type} : List (String × α) → String → α → List (String × α)
  | [], k, v => [(k, v)]
  | (k', v') :: rest, k, v =>
    if k' = k then (k, v) :: rest else (k', v') :: mapAssign rest k v

/-- The keys of a map. -/
def mapKeys {α : Type} (m : List (String × α)) : List String := m.map Prod.fst

/-- NaN test on a binary64 bit pattern: exponent all ones, fraction non-zero. -/
def float64IsNaN (bits : Nat) : Bool :=
  (bits / 2 ^ 52) % 2 ^ 11 == 2047 && bits % 2 ^ 52 != 0

/-- Go's `==` on float64: NaN equals nothing, the two zeros are equal. -/
def float64Eq (a b : Nat) : Bool :=
  !float64IsNaN a && !float64IsNaN b &&
    (a % 2 ^ 64 == b % 2 ^ 64 || (a % 2 ^ 63 == 0 && b % 2 ^ 63 == 0))

/-- NaN test on a binary32 bit pattern. -/
def float32IsNaN (bits : Nat) : Bool :=
  (bits / 2 ^ 23) % 2 ^ 8 == 255 && bits % 2 ^ 23 != 0

/-- Go's `==` on float32. -/
def float32Eq (a b : Nat) : Bool :=
  !float32IsNaN a && !float32IsNaN b &&
    (a % 2 ^ 32 == b % 2 ^ 32 || (a % 2 ^ 31 == 0 && b % 2 ^ 31 == 0))

mutual
/-- The recursion of `reflect.DeepEqual` (deepValueEqual) on interface values: the dynamic
types must be identical, then scalars compare with `==`, slices element by
element, maps by length and by key. -/
def valueDeepEqual : Value → Value → Bool
  | .nil, .nil => true
  | .bool a, .bool b => a == b
  | .string a, .string b => a == b
  | .int32 a, .int32 b => a == b
  | .int64 a, .int64 b => a == b
  | .uint32 a, .uint32 b => a == b
  | .uint64 a, .uint64 b => a == b
  | .float32 a, .float32 b => float32Eq a b
  | .float64 a, .float64 b => float64Eq a b
  | .slice xs, .slice ys => sliceDeepEqual xs ys
  | .map a, .map b => a.length == b.length && entriesDeepEqual a b
  | _, _ => false
/-- Slice case: equal lengths and pairwise deeply equal elements. -/
def sliceDeepEqual : List Value → List Value → Bool
  | [], [] => true
  | x :: xs, y :: ys => valueDeepEqual x y && sliceDeepEqual xs ys
  | _, _ => false
/-- Map case, the loop over `v1.MapKeys()`: every key of the first map is present
in the second with a deeply equal value. -/
def entriesDeepEqual : List (String × Value) → List (String × Value) → Bool
  | [], _ => true
  | (k, v) :: rest, b =>
    (match mapIndex b k with
     | some w => valueDeepEqual v w
     | none => false) && entriesDeepEqual rest b
end

/-- The call `reflect.DeepEqual(x, y)` on two `map[string]interface{}` values: nil-ness
must agree, then lengths, then every key of `x`. -/
def DeepEqual : Option Fields → Option Fields → Bool
  | none, none => true
  | some a, some b => a.length == b.length && entriesDeepEqual a b
  | _, _ => false

/-! ## Strings, paths, errors -/

/-- The function `strings.HasPrefix`. -/
def HasPrefix (s pre : String) : Bool := pre.data.isPrefixOf s.data

/-- The function `strings.TrimPrefix`: `s` without the leading `pre`, or `s` itself. -/
def TrimPrefix (s pre : String) : String :=
  if HasPrefix s pre then ⟨s.data.drop pre.data.length⟩ else s

/-- The function `strings.HasSuffix`. -/
def HasSuffix (s suf : String) : Bool := suf.data.reverse.isPrefixOf s.data.reverse

/-- The function `strings.TrimSuffix`: `s` without the trailing `suf`, or `s` itself. -/
def TrimSuffix (s suf : String) : String :=
  if HasSuffix s suf then ⟨s.data.take (s.data.length - suf.data.length)⟩ else s

/-- The loop of `filepath.Ext`, walking from the last character towards the first:
stop with no extension at a path separator, return the suffix at the first dot met. -/
def extLoop : List Char → List Char → List Char
  | [], _ => []
  | c :: before, acc =>
    if c = '/' then [] else if c = '.' then '.' :: acc else extLoop before (c :: acc)

/-- The function `filepath.Ext`: the suffix beginning at the final dot of the final path element. -/
def Ext (path : String) : String := ⟨extLoop path.data.reverse []⟩

/-- The function `filepath.Join` on a directory and an entry name: empty elements are dropped,
the rest joined by the separator (the lexical cleaning of the result is left to
the file system that interprets the path). -/
def Join (dir name : String) : String :=
  if dir = "" then name else if name = "" then dir else dir ++ "/" ++ name

/-- The function `errors.Wrapf(err, msg)` on a non-nil error: the message, a colon, the cause. -/
def Wrapf (err msg : String) : String := msg ++ ": " ++ err

/-! ## Mock records and the store -/

/-- The struct `Mock`. -/
structure Mock where
  Request : Option Fields
  Response : Option Fields
  StatusCode : Int

/-- The mock store `map[string][]Mock`. -/
abbrev Store := List (String × List Mock)

/-- One-result map read `mocks[method]`: the nil slice for an absent key. -/
def Store.index (mocks : Store) (method : String) : List Mock :=
  (mapIndex mocks method).getD []

/-! ## The canonical mapping: `structs.New(req)` with `TagName = "json"`, then `Map()` -/

/-- A field of a request struct as reflection sees it: name, package path (empty
for an exported field), the value of the `json` key of its tag, current value. -/
structure StructField where
  Name : String
  PkgPath : String
  Tag : String
  Val : Value

/-- A struct value: its fields in declaration order. -/
abbrev GoStruct := List StructField

/-- The call `strings.Split(s, ",")`. -/
def splitComma : List Char → List (List Char)
  | [] => [[]]
  | c :: rest =>
    match splitComma rest with
    | [] => [[c]]
    | hd :: tl => if c = ',' then [] :: hd :: tl else (c :: hd) :: tl

/-- The function `parseTag` of structs: the name before the first comma and the options after it. -/
def parseTag (tag : String) : String × List String :=
  match (splitComma tag.data).map String.mk with
  | [] => ("", [])
  | name :: opts => (name, opts)

/-- The test `reflect.DeepEqual(current, zero)` behind `omitempty`: whether a field
value is the zero value of its type. -/
def Value.isZero : Value → Bool
  | .nil => true
  | .bool b => !b
  | .string s => s == ""
  | .int32 n => n == 0
  | .int64 n => n == 0
  | .uint32 n => n == 0
  | .uint64 n => n == 0
  | .float32 b => float32Eq b 0
  | .float64 b => float64Eq b 0
  | .slice _ => false
  | .map _ => false

/-- The method `FillMap` of structs: unexported fields and fields tagged `-` are
skipped; the key is the tag name, or the field name when the tag has none;
`omitempty` drops zero values; `string` keeps only `fmt.Stringer` values (none of
the modelled values is one); `flatten` merges a map-valued field into the output. -/
def FillMap : GoStruct → Fields → Fields
  | [], out => out
  | f :: rest, out =>
    if f.PkgPath ≠ "" then FillMap rest out
    else if f.Tag = "-" then FillMap rest out
    else
      let name := if (parseTag f.Tag).1 ≠ "" then (parseTag f.Tag).1 else f.Name
      let tagOpts := (parseTag f.Tag).2
      if tagOpts.contains "omitempty" && f.Val.isZero then FillMap rest out
      else if tagOpts.contains "string" then FillMap rest out
      else
        match f.Val, tagOpts.contains "flatten" && !tagOpts.contains "omitnested" with
        | .map kvs, true =>
          FillMap rest (kvs.foldl (fun o kv => mapAssign o kv.1 kv.2) out)
        | v, _ => FillMap rest (mapAssign out name v)

/-- The method `Map` of structs: `FillMap` into a fresh, non-nil map. -/
def structsMap (req : GoStruct) : Fields := FillMap req []

/-! ## `mapMock` and `mockInterceptor` -/

/-- The function `mapMock`. `decode input rsp` stands for `mapstructure.Decode(input, &rsp)`:
it yields the response value after the call and the error, if any. The result
is the response value after `mapMock` and its error. -/
def mapMock {Rsp : Type} (decode : Option Fields → Rsp → Rsp × Option String) :
    List Mock → GoStruct → Rsp → Rsp × Option String
  | [], _, rsp => (rsp, none)
  | m :: rest, req, rsp =>
    if !DeepEqual m.Request (some (structsMap req)) then
      mapMock decode rest req rsp
    else
      match decode m.Response rsp with
      | (rsp', some err) => (rsp', some (Wrapf err "failed to decode response"))
      | (rsp', none) => (rsp', none)

/-- An exported method of the service value as `reflect.Type.MethodByName` reports
it: its name, and the zero value `reflect.New(m.Type.Out(0).Elem())` points to. -/
structure Method (Rsp : Type) where
  Name : String
  Out0 : Rsp

/-- The call `t.MethodByName(method)`. -/
def MethodByName {Rsp : Type} : List (Method Rsp) → String → Option (Method Rsp)
  | [], _ => none
  | m :: rest, name => if m.Name = name then some m else MethodByName rest name

/-- The closure returned by `mockInterceptor(svc, mocks)`, applied to a request and to
`info.FullMethod`; `svc` is the method table of `reflect.TypeOf(svc)`. -/
def mockInterceptor {Rsp : Type} (decode : Option Fields → Rsp → Rsp × Option String)
    (svc : List (Method Rsp)) (mocks : Store) (req : GoStruct) (FullMethod : String) :
    Option Rsp × Option String :=
  let method := TrimPrefix FullMethod "/ping.PingService/"
  match MethodByName svc method with
  | none => (none, some ("did not find method=" ++ method))
  | some m =>
    match mapMock decode (mocks.index method) req m.Out0 with
    | (_, some err) => (none, some (Wrapf err "failed to map mocks"))
    | (rsp, none) => (some rsp, none)

/-! ## Loading the store -/

/-- The environment of `LoadMocks`: `ioutil.ReadDir` (entry names, sorted), `os.Open`,
and `json.NewDecoder(f).Decode(&m)` into `m := []Mock{}`. -/
structure FS (File : Type) where
  ReadDir : String → Except String (List String)
  Open : String → Except String File
  Decode : File → Except String (List Mock)

/-- The loop of `LoadMocks` over the directory entries, `mocks` being the map filled so far. -/
def loadLoop {File : Type} (fs : FS File) (dir : String) :
    List String → Store → Option Store × Option String
  | [], mocks => (some mocks, none)
  | file :: rest, mocks =>
    match fs.Open (Join dir file) with
    | .error err => (none, some (Wrapf err ("failed to open file=" ++ file)))
    | .ok f =>
      match fs.Decode f with
      | .error err => (none, some (Wrapf err ("failed to decode mock with file=" ++ file)))
      | .ok m => loadLoop fs dir rest (mapAssign mocks (TrimSuffix file (Ext file)) m)

/-- The function `LoadMocks`. -/
def LoadMocks {File : Type} (fs : FS File) (dir : String) : Option Store × Option String :=
  match fs.ReadDir dir with
  | .error err => (none, some (Wrapf err ("failed to read dir=" ++ dir)))
  | .ok files => loadLoop fs dir files []

/-- The records an entry parses to: the entry opened, then decoded. -/
def parsedRecords {File : Type} (fs : FS File) (dir file : String) : Option (List Mock) :=
  match fs.Open (Join dir file) with
  | .error _ => none
  | .ok f =>
    match fs.Decode f with
    | .error _ => none
    | .ok m => some m

/-! ## The Ping service -/

/-- Modelled from the spec: the request message of package `pingpb`, whose one field
`Ping` is a string named `Ping` in the canonical mapping; `omitempty` says whether
its `json` tag carries that option. -/
def PingRequest (Ping : String) (omitempty : Bool) : GoStruct :=
  [{ Name := "Ping", PkgPath := "", Tag := if omitempty then "Ping,omitempty" else "Ping",
     Val := .string Ping }]

/-- Modelled from the spec: the response message of package `pingpb`, with the one string
field `Pong`. -/
structure PingResponse where
  Pong : String
  deriving DecidableEq

/-- Modelled from the spec: the method table of `pingpb.UnimplementedPingServiceServer`,
the single RPC method `Ping` answering with a `PingResponse`. -/
def pingService : List (Method PingResponse) := [{ Name := "Ping", Out0 := { Pong := "" } }]

/-- The value `mapstructure` binds to the field `Pong` (decodeStructFromMap): that of the key
equal to the field name, else that of a key equal to it up to letter case (the
first one in the list; Go leaves the choice open when several keys qualify). -/
def pongKey (input : Fields) : Option Value :=
  match mapIndex input "Pong" with
  | some v => some v
  | none =>
    match input.find? (fun kv => kv.1.data.map Char.toLower == "pong".data) with
    | some kv => some kv.2
    | none => none

/-- The call `mapstructure.Decode(input, &rsp)` for `rsp` holding a `*PingResponse`, with the default
(not weakly typed) configuration: a nil map, a map without the key and a nil value
leave the struct as it is, a string is stored in `Pong`, a value of any other kind
is a decoding error. -/
def decodePingResponse (input : Option Fields) (rsp : PingResponse) :
    PingResponse × Option String :=
  match input with
  | none => (rsp, none)
  | some m =>
    match pongKey m with
    | none => (rsp, none)
    | some .nil => (rsp, none)
    | some (.string s) => ({ Pong := s }, none)
    | some _ =>
      (rsp, some "1 error(s) decoding:\n\n* 'Pong' expected type 'string', got unconvertible type")

/-- The store of the scenarios: method `Ping` with the single hello/world record. -/
def pingStore : Store :=
  [("Ping", [{ Request := some [("Ping", .string "hello")],
               Response := some [("Pong", .string "world")],
               StatusCode := 0 }])]


/-! ## Data of the scenarios -/

/-- A store holding an entry under `Echo`, a method the Ping service does not declare. -/
def echoStore : Store :=
  [("Echo", [{ Request := some [("Ping", .string "hello")],
               Response := some [("Pong", .string "echo")],
               StatusCode := 0 }])]

/-- The store `pingStore` with another `StatusCode` on its record. -/
def pingStore7 : Store :=
  [("Ping", [{ Request := some [("Ping", .string "hello")],
               Response := some [("Pong", .string "world")],
               StatusCode := 7 }])]

/-- Two records that both equal the hello request; they differ in their responses. -/
def firstSecond : List Mock :=
  [{ Request := some [("Ping", .string "hello")],
     Response := some [("Pong", .string "first")], StatusCode := 0 },
   { Request := some [("Ping", .string "hello")],
     Response := some [("Pong", .string "second")], StatusCode := 0 }]

/-- Two records that both equal the hello request; the response of the earlier one does
not decode into a `PingResponse` (its `Pong` is a number). -/
def badThenGood : List Mock :=
  [{ Request := some [("Ping", .string "hello")],
     Response := some [("Pong", .float64 4607182418800017408)], StatusCode := 0 },
   { Request := some [("Ping", .string "hello")],
     Response := some [("Pong", .string "second")], StatusCode := 0 }]

/-- A request message with one `int32` field `Count`. -/
def countRequest (Count : Int) : GoStruct :=
  [{ Name := "Count", PkgPath := "", Tag := "Count,omitempty", Val := .int32 Count }]

/-- The record a mock file holding the number 1 under `Count` loads to: `encoding/json` stores
a JSON number in an `interface{}` as a float64, and 4607182418800017408 is the bit
pattern 0x3FF0000000000000 of 1.0. -/
def countRecord : Mock :=
  { Request := some [("Count", .float64 4607182418800017408)],
    Response := some [("Pong", .string "world")], StatusCode := 0 }

/-- The integer a binary64 bit pattern denotes, when it denotes one. -/
def float64Int? (bits : Nat) : Option Int :=
  let e := (bits / 2 ^ 52) % 2 ^ 11
  let frac := bits % 2 ^ 52
  if e == 2047 then none
  else
    let mant := if e == 0 then frac else 2 ^ 52 + frac
    let ex := if e == 0 then 1 else e
    let mag : Option Nat :=
      if 1075 ≤ ex then some (mant * 2 ^ (ex - 1075))
      else if mant % 2 ^ (1075 - ex) == 0 then some (mant / 2 ^ (1075 - ex)) else none
    mag.map (fun n => if (bits / 2 ^ 63) % 2 == 1 then - (n : Int) else (n : Int))

/-- The record of the file `Ping.json` in the directories below. -/
def helloWorld : Mock :=
  { Request := some [("Ping", .string "hello")],
    Response := some [("Pong", .string "world")], StatusCode := 0 }

/-- The decoder of the directories below: the text of the hello/world file, the empty
JSON array, and anything else a syntax error. -/
def decodeText (text : String) : Except String (List Mock) :=
  if text = "[\x7b\"Request\":\x7b\"Ping\":\"hello\"\x7d,\"Response\":\x7b\"Pong\":\"world\"\x7d,\"StatusCode\":0\x7d]"
  then .ok [helloWorld]
  else if text = "[]" then .ok []
  else .error "unexpected end of JSON input"

/-- A directory `mocks` holding the single file `Ping.json`. -/
def mocksFS : FS String :=
  { ReadDir := fun dir =>
      if dir = "mocks" then .ok ["Ping.json"] else .error "no such file or directory"
    Open := fun path =>
      if path = "mocks/Ping.json" then
        .ok "[\x7b\"Request\":\x7b\"Ping\":\"hello\"\x7d,\"Response\":\x7b\"Pong\":\"world\"\x7d,\"StatusCode\":0\x7d]"
      else .error "no such file or directory"
    Decode := decodeText }

/-- A directory `mocks` holding `Ping.json` and a truncated `Pong.json`. -/
def brokenFS : FS String :=
  { ReadDir := fun dir =>
      if dir = "mocks" then .ok ["Ping.json", "Pong.json"]
      else .error "no such file or directory"
    Open := fun path =>
      if path = "mocks/Ping.json" then
        .ok "[\x7b\"Request\":\x7b\"Ping\":\"hello\"\x7d,\"Response\":\x7b\"Pong\":\"world\"\x7d,\"StatusCode\":0\x7d]"
      else if path = "mocks/Pong.json" then .ok "["
      else .error "no such file or directory"
    Decode := decodeText }

/-- A directory `mocks` holding `Ping.json` and `Ping.txt`, both well-formed; the second
holds the empty array. -/
def collidingFS : FS String :=
  { ReadDir := fun dir =>
      if dir = "mocks" then .ok ["Ping.json", "Ping.txt"]
      else .error "no such file or directory"
    Open := fun path =>
      if path = "mocks/Ping.json" then
        .ok "[\x7b\"Request\":\x7b\"Ping\":\"hello\"\x7d,\"Response\":\x7b\"Pong\":\"world\"\x7d,\"StatusCode\":0\x7d]"
      else if path = "mocks/Ping.txt" then .ok "[]"
      else .error "no such file or directory"
    Decode := decodeText }

/-! ## Stores that differ only in `StatusCode` -/

/-- A record with its `StatusCode` reset. -/
def Mock.eraseStatus (m : Mock) : Mock := { m with StatusCode := 0 }

/-- A store with every `StatusCode` reset: two stores differ only in their `StatusCode`
values when they agree after this. -/
def Store.eraseStatus (mocks : Store) : Store :=
  mocks.map (fun kv => (kv.1, kv.2.map Mock.eraseStatus))

/-! ## First match in `mapMock` -/

theorem mapMock_cons_of_ne {Rsp : Type} (decode : Option Fields → Rsp → Rsp × Option String)
    (m : Mock) (rest : List Mock) (req : GoStruct) (rsp : Rsp)
    (h : DeepEqual m.Request (some (structsMap req)) = false) :
    mapMock decode (m :: rest) req rsp = mapMock decode rest req rsp := by
  simp [mapMock, h]

theorem mapMock_cons_of_eq {Rsp : Type} (decode : Option Fields → Rsp → Rsp × Option String)
    (m : Mock) (rest : List Mock) (req : GoStruct) (rsp : Rsp)
    (h : DeepEqual m.Request (some (structsMap req)) = true) :
    mapMock decode (m :: rest) req rsp =
      ((decode m.Response rsp).1,
        (decode m.Response rsp).2.map (fun err => Wrapf err "failed to decode response")) := by
  simp only [mapMock, h, Bool.not_true, Bool.false_eq_true, if_false]
  rcases decode m.Response rsp with ⟨r, _ | e⟩ <;> rfl

theorem mapMock_of_no_match {Rsp : Type} (decode : Option Fields → Rsp → Rsp × Option String)
    (ms : List Mock) (req : GoStruct) (rsp : Rsp)
    (h : ∀ m ∈ ms, DeepEqual m.Request (some (structsMap req)) = false) :
    mapMock decode ms req rsp = (rsp, none) := by
  induction ms with
  | nil => rfl
  | cons m rest ih =>
    rw [mapMock_cons_of_ne decode m rest req rsp (h m (List.mem_cons_self _ _))]
    exact ih (fun m' hm' => h m' (List.mem_cons_of_mem _ hm'))

theorem TrimPrefix_append (pre m : String) : TrimPrefix (pre ++ m) pre = m := by
  have h : HasPrefix (pre ++ m) pre = true := by
    simp [HasPrefix, String.data_append]
  simp [TrimPrefix, h, String.data_append]

theorem TrimPrefix_of_not_HasPrefix (s pre : String) (h : HasPrefix s pre = false) :
    TrimPrefix s pre = s := by
  simp [TrimPrefix, h]

/-- C1. When some record of `ms` has a `Request` deeply equal to the canonical mapping
of `req`, there is a least index `i` holding such a record `m`, no record before it
matches, and the outcome of `mapMock` is the outcome of decoding `m.Response` alone:
the response value the decoder leaves and, if the decoder fails, its error wrapped,
whatever the later records are. -/
theorem mapMock_first_match {Rsp : Type} (decode : Option Fields → Rsp → Rsp × Option String)
    (ms : List Mock) (req : GoStruct) (rsp : Rsp)
    (h : ∃ m ∈ ms, DeepEqual m.Request (some (structsMap req)) = true) :
    ∃ (i : Nat) (m : Mock), ms[i]? = some m ∧ DeepEqual m.Request (some (structsMap req)) = true ∧
      (∀ (j : Nat) (m' : Mock), j < i → ms[j]? = some m' →
        DeepEqual m'.Request (some (structsMap req)) = false) ∧
      mapMock decode ms req rsp =
        ((decode m.Response rsp).1,
          (decode m.Response rsp).2.map (fun err => Wrapf err "failed to decode response")) ∧
      (∀ err, (decode m.Response rsp).2 = some err →
        (mapMock decode ms req rsp).2 = some (Wrapf err "failed to decode response")) := by
  induction ms with
  | nil => obtain ⟨m, hm, _⟩ := h; cases hm
  | cons m rest ih =>
    cases hm : DeepEqual m.Request (some (structsMap req)) with
    | true =>
      refine ⟨0, m, List.getElem?_cons_zero, hm, ?_, mapMock_cons_of_eq decode m rest req rsp hm, ?_⟩
      · intro j m' hj; omega
      · intro err herr
        rw [mapMock_cons_of_eq decode m rest req rsp hm]
        simp [herr]
    | false =>
      have h' : ∃ m' ∈ rest, DeepEqual m'.Request (some (structsMap req)) = true := by
        obtain ⟨m', hm', hd⟩ := h
        rcases List.mem_cons.mp hm' with rfl | hin
        · rw [hm] at hd; cases hd
        · exact ⟨m', hin, hd⟩
      obtain ⟨i, mi, hi, hmatch, hleast, hres, herr⟩ := ih h'
      refine ⟨i + 1, mi, by rw [List.getElem?_cons_succ]; exact hi, hmatch, ?_, ?_, ?_⟩
      · intro j m' hj hget
        cases j with
        | zero =>
          simp at hget
          subst hget
          exact hm
        | succ j =>
          simp at hget
          exact hleast j m' (by omega) hget
      · rw [mapMock_cons_of_ne decode m rest req rsp hm]; exact hres
      · intro err he
        rw [mapMock_cons_of_ne decode m rest req rsp hm]; exact herr err he

/-! ## `StatusCode`, unknown methods, unmatched calls -/

theorem mapMock_eraseStatus {Rsp : Type} (decode : Option Fields → Rsp → Rsp × Option String)
    (ms : List Mock) (req : GoStruct) (rsp : Rsp) :
    mapMock decode (ms.map Mock.eraseStatus) req rsp = mapMock decode ms req rsp := by
  induction ms with
  | nil => rfl
  | cons m rest ih =>
    simp only [List.map_cons, mapMock, Mock.eraseStatus, ih]

theorem mapIndex_eraseStatus (mocks : Store) (method : String) :
    mapIndex mocks.eraseStatus method = (mapIndex mocks method).map (List.map Mock.eraseStatus) := by
  induction mocks with
  | nil => rfl
  | cons kv rest ih =>
    obtain ⟨k, v⟩ := kv
    simp only [Store.eraseStatus, List.map_cons, mapIndex] at ih ⊢
    split
    · rfl
    · exact ih

theorem index_eraseStatus (mocks : Store) (method : String) :
    mocks.eraseStatus.index method = (mocks.index method).map Mock.eraseStatus := by
  unfold Store.index
  rw [mapIndex_eraseStatus]
  cases mapIndex mocks method <;> rfl

theorem mockInterceptor_eraseStatus {Rsp : Type}
    (decode : Option Fields → Rsp → Rsp × Option String)
    (svc : List (Method Rsp)) (mocks : Store) (req : GoStruct) (FullMethod : String) :
    mockInterceptor decode svc mocks.eraseStatus req FullMethod =
      mockInterceptor decode svc mocks req FullMethod := by
  simp only [mockInterceptor, index_eraseStatus, mapMock_eraseStatus]

/-- Witness of C1 on two records that both equal the request: the earlier one answers. -/
theorem mapMock_first_match_witness :
    (∃ m ∈ firstSecond,
      DeepEqual m.Request (some (structsMap (PingRequest "hello" true))) = true) ∧
    (∃ (i : Nat) (m : Mock), firstSecond[i]? = some m ∧
      DeepEqual m.Request (some (structsMap (PingRequest "hello" true))) = true ∧
      (∀ (j : Nat) (m' : Mock), j < i → firstSecond[j]? = some m' →
        DeepEqual m'.Request (some (structsMap (PingRequest "hello" true))) = false) ∧
      mapMock decodePingResponse firstSecond (PingRequest "hello" true) { Pong := "" } =
        ((decodePingResponse m.Response { Pong := "" }).1,
          (decodePingResponse m.Response { Pong := "" }).2.map
            (fun err => Wrapf err "failed to decode response")) ∧
      (∀ err, (decodePingResponse m.Response { Pong := "" }).2 = some err →
        (mapMock decodePingResponse firstSecond (PingRequest "hello" true) { Pong := "" }).2 =
          some (Wrapf err "failed to decode response"))) ∧
    mapMock decodePingResponse firstSecond (PingRequest "hello" true) { Pong := "" } =
      ({ Pong := "first" }, none) ∧
    (mapMock decodePingResponse badThenGood (PingRequest "hello" true) { Pong := "" }).2 ≠
      none :=
  ⟨⟨_, List.mem_cons_self _ _, rfl⟩,
   mapMock_first_match decodePingResponse firstSecond (PingRequest "hello" true) { Pong := "" }
     ⟨_, List.mem_cons_self _ _, rfl⟩,
   rfl, by decide⟩

/-- C10. The outcome of `mockInterceptor` does not depend on any `StatusCode`: two stores
that agree once every `StatusCode` is reset give the same response and the same
error for every service table, request and method identifier. -/
theorem mockInterceptor_ignores_StatusCode {Rsp : Type}
    (decode : Option Fields → Rsp → Rsp × Option String)
    (svc : List (Method Rsp)) (mocks₁ mocks₂ : Store) (req : GoStruct) (FullMethod : String)
    (h : mocks₁.eraseStatus = mocks₂.eraseStatus) :
    mockInterceptor decode svc mocks₁ req FullMethod =
      mockInterceptor decode svc mocks₂ req FullMethod := by
  rw [← mockInterceptor_eraseStatus decode svc mocks₁, h, mockInterceptor_eraseStatus]

/-- Witness of C10 on the scenario store and its copy with `StatusCode` 7. -/
theorem mockInterceptor_ignores_StatusCode_witness :
    pingStore.eraseStatus = pingStore7.eraseStatus ∧
    mockInterceptor decodePingResponse pingService pingStore (PingRequest "hello" true)
        "/ping.PingService/Ping" =
      mockInterceptor decodePingResponse pingService pingStore7 (PingRequest "hello" true)
        "/ping.PingService/Ping" :=
  ⟨rfl,
   mockInterceptor_ignores_StatusCode decodePingResponse pingService pingStore pingStore7
     (PingRequest "hello" true) "/ping.PingService/Ping" rfl⟩

/-- C5. When the identifier, stripped of the prefix, names no method of the service table,
`mockInterceptor` returns a nil response and the error `did not find method=...`,
whatever the decoder, the request and the store. -/
theorem mockInterceptor_method_not_found {Rsp : Type}
    (decode : Option Fields → Rsp → Rsp × Option String)
    (svc : List (Method Rsp)) (mocks : Store) (req : GoStruct) (FullMethod : String)
    (h : MethodByName svc (TrimPrefix FullMethod "/ping.PingService/") = none) :
    mockInterceptor decode svc mocks req FullMethod =
      (none, some ("did not find method=" ++ TrimPrefix FullMethod "/ping.PingService/")) := by
  simp only [mockInterceptor, h]

/-- Witness of C5: a call naming `Echo` on the Ping service, with a store that has an
entry under `Echo`. -/
theorem mockInterceptor_method_not_found_witness :
    MethodByName pingService (TrimPrefix "/ping.PingService/Echo" "/ping.PingService/") = none ∧
    mockInterceptor decodePingResponse pingService echoStore (PingRequest "hello" true)
      "/ping.PingService/Echo" =
      (none, some ("did not find method=" ++
        TrimPrefix "/ping.PingService/Echo" "/ping.PingService/")) ∧
    TrimPrefix "/ping.PingService/Echo" "/ping.PingService/" = "Echo" :=
  ⟨rfl,
   mockInterceptor_method_not_found decodePingResponse pingService echoStore
     (PingRequest "hello" true) "/ping.PingService/Echo" rfl,
   by decide⟩

theorem mapIndex_mapAssign {α : Type} (m : List (String × α)) (k k' : String) (v : α) :
    mapIndex (mapAssign m k v) k' = if k = k' then some v else mapIndex m k' := by
  induction m with
  | nil => simp [mapAssign, mapIndex]
  | cons kv rest ih =>
    obtain ⟨k₀, v₀⟩ := kv
    by_cases h : k₀ = k
    · subst h
      by_cases h' : k₀ = k' <;> simp [mapAssign, mapIndex, h']
    · by_cases h' : k₀ = k'
      · subst h'
        simp [mapAssign, mapIndex, h, Ne.symm h]
      · simp [mapAssign, mapIndex, h, h', ih]

/-- C4. For a method the service table knows, when the store has no entry for it or no
record of its entry equals the canonical request, `mapMock` returns no error and
the response untouched, and `mockInterceptor` returns the zero-valued response of
the method with a nil error; a store without the entry answers as the same store
with the empty record list assigned to the method. -/
theorem mockInterceptor_no_match {Rsp : Type}
    (decode : Option Fields → Rsp → Rsp × Option String)
    (svc : List (Method Rsp)) (mocks : Store) (req : GoStruct) (FullMethod : String)
    (m : Method Rsp)
    (hm : MethodByName svc (TrimPrefix FullMethod "/ping.PingService/") = some m)
    (h : mapIndex mocks (TrimPrefix FullMethod "/ping.PingService/") = none ∨
      ∀ r ∈ mocks.index (TrimPrefix FullMethod "/ping.PingService/"),
        DeepEqual r.Request (some (structsMap req)) = false) :
    mapMock decode (mocks.index (TrimPrefix FullMethod "/ping.PingService/")) req m.Out0 =
      (m.Out0, none) ∧
    mockInterceptor decode svc mocks req FullMethod = (some m.Out0, none) ∧
    (mapIndex mocks (TrimPrefix FullMethod "/ping.PingService/") = none →
      mocks.index (TrimPrefix FullMethod "/ping.PingService/") = [] ∧
      mockInterceptor decode svc mocks req FullMethod =
        mockInterceptor decode svc
          (mapAssign mocks (TrimPrefix FullMethod "/ping.PingService/") []) req FullMethod) := by
  have hnone : ∀ r ∈ mocks.index (TrimPrefix FullMethod "/ping.PingService/"),
      DeepEqual r.Request (some (structsMap req)) = false := by
    rcases h with h | h
    · intro r hr
      simp [Store.index, h] at hr
    · exact h
  have hmap := mapMock_of_no_match decode _ req m.Out0 hnone
  refine ⟨hmap, ?_, ?_⟩
  · simp only [mockInterceptor, hm, hmap]
  · intro habs
    refine ⟨by simp [Store.index, habs], ?_⟩
    simp only [mockInterceptor, hm, Store.index, habs, mapIndex_mapAssign, if_true]
    rfl

/-- Witness of C4: the Ping service called with goodbye against the hello record. -/
theorem mockInterceptor_no_match_witness :
    MethodByName pingService (TrimPrefix "/ping.PingService/Ping" "/ping.PingService/") =
      some { Name := "Ping", Out0 := { Pong := "" } } ∧
    (∀ r ∈ pingStore.index (TrimPrefix "/ping.PingService/Ping" "/ping.PingService/"),
      DeepEqual r.Request (some (structsMap (PingRequest "goodbye" true))) = false) ∧
    mockInterceptor decodePingResponse pingService pingStore (PingRequest "goodbye" true)
      "/ping.PingService/Ping" = (some { Pong := "" }, none) :=
  ⟨rfl, by decide,
   (mockInterceptor_no_match decodePingResponse pingService pingStore
     (PingRequest "goodbye" true) "/ping.PingService/Ping"
     { Name := "Ping", Out0 := { Pong := "" } } rfl (Or.inr (by decide))).2.1⟩

/-- C3. With the store whose only entry is method `Ping` with the hello/world record, the
call `/ping.PingService/Ping` with request Ping = hello returns, with no error, the
response whose `Pong` is world (whether or not the field's tag carries `omitempty`). -/
theorem ping_hello_world (omitempty : Bool) :
    mockInterceptor decodePingResponse pingService pingStore (PingRequest "hello" omitempty)
      "/ping.PingService/Ping" = (some { Pong := "world" }, none) := by
  cases omitempty <;> decide

/-! ## The method identifier -/

theorem eq_of_append_slash (P s rest rest' : List Char) (hP : '/' ∉ P) (hs : '/' ∉ s)
    (h : P ++ '/' :: rest = s ++ '/' :: rest') : P = s := by
  induction P generalizing s with
  | nil =>
    cases s with
    | nil => rfl
    | cons c s' =>
      simp only [List.nil_append, List.cons_append, List.cons.injEq] at h
      exact absurd (h.1 ▸ List.mem_cons_self _ _) hs
  | cons a P' ih =>
    cases s with
    | nil =>
      simp only [List.nil_append, List.cons_append, List.cons.injEq] at h
      exact absurd (h.1 ▸ List.mem_cons_self _ _) hP
    | cons c s' =>
      simp only [List.cons_append, List.cons.injEq] at h
      rw [h.1, ih s' (fun hm => hP (List.mem_cons_of_mem _ hm))
        (fun hm => hs (List.mem_cons_of_mem _ hm)) h.2]

theorem HasPrefix_other_service (s m : String) (hne : s ≠ "ping.PingService")
    (hs : '/' ∉ s.data) :
    HasPrefix ("/" ++ s ++ "/" ++ m) "/ping.PingService/" = false := by
  cases hp : HasPrefix ("/" ++ s ++ "/" ++ m) "/ping.PingService/" with
  | false => rfl
  | true =>
    exfalso
    unfold HasPrefix at hp
    rw [List.isPrefixOf_iff_prefix] at hp
    obtain ⟨t, ht⟩ := hp
    have hd : ("/" ++ s ++ "/" ++ m).data = '/' :: (s.data ++ '/' :: m.data) := by
      simp [String.data_append]
    have hpre : "/ping.PingService/".data = '/' :: ("ping.PingService".data ++ ['/']) := by
      decide
    rw [hd, hpre] at ht
    simp only [List.cons_append, List.cons.injEq, true_and, List.append_assoc,
      List.singleton_append] at ht
    have := eq_of_append_slash "ping.PingService".data s.data t m.data (by decide) hs ht
    exact hne (String.ext this.symm)

/-- C6 (amended). The interceptor strips the fixed prefix `/ping.PingService/`: for the service
name `ping.PingService` and every method name `m`, the identifier made of a slash,
the service name, a slash and `m` is stripped to `m`, and exactly `m` is looked up in
the service table and in the store; an identifier that does not begin with that
prefix is not stripped, and the whole identifier is looked up; this is the case of
every other service name (one without a slash). -/
theorem mockInterceptor_strips_ping_service {Rsp : Type}
    (decode : Option Fields → Rsp → Rsp × Option String)
    (svc : List (Method Rsp)) (mocks : Store) (req : GoStruct) :
    (∀ s m : String, s = "ping.PingService" →
      TrimPrefix ("/" ++ s ++ "/" ++ m) "/ping.PingService/" = m ∧
      mockInterceptor decode svc mocks req ("/" ++ s ++ "/" ++ m) =
        match MethodByName svc m with
        | none => (none, some ("did not find method=" ++ m))
        | some meth =>
          match mapMock decode (mocks.index m) req meth.Out0 with
          | (_, some err) => (none, some (Wrapf err "failed to map mocks"))
          | (rsp, none) => (some rsp, none)) ∧
    (∀ id : String, HasPrefix id "/ping.PingService/" = false →
      TrimPrefix id "/ping.PingService/" = id ∧
      mockInterceptor decode svc mocks req id =
        match MethodByName svc id with
        | none => (none, some ("did not find method=" ++ id))
        | some meth =>
          match mapMock decode (mocks.index id) req meth.Out0 with
          | (_, some err) => (none, some (Wrapf err "failed to map mocks"))
          | (rsp, none) => (some rsp, none)) ∧
    (∀ s m : String, s ≠ "ping.PingService" → '/' ∉ s.data →
      TrimPrefix ("/" ++ s ++ "/" ++ m) "/ping.PingService/" = "/" ++ s ++ "/" ++ m) := by
  refine ⟨?_, ?_, ?_⟩
  · intro s m hs
    subst hs
    have hid : "/" ++ "ping.PingService" ++ "/" ++ m = "/ping.PingService/" ++ m := by
      have : "/" ++ "ping.PingService" ++ "/" = "/ping.PingService/" := by decide
      rw [this]
    have ht : TrimPrefix ("/" ++ "ping.PingService" ++ "/" ++ m) "/ping.PingService/" = m := by
      rw [hid]
      exact TrimPrefix_append "/ping.PingService/" m
    refine ⟨ht, ?_⟩
    simp only [mockInterceptor, ht]
  · intro id hid
    have ht := TrimPrefix_of_not_HasPrefix id "/ping.PingService/" hid
    refine ⟨ht, ?_⟩
    simp only [mockInterceptor, ht]
  · intro s m hne hs
    exact TrimPrefix_of_not_HasPrefix _ _ (HasPrefix_other_service s m hne hs)

/-- Witness of C6 (amended): the method `Ping` under the service name `ping.PingService`. -/
theorem mockInterceptor_strips_ping_service_witness :
    TrimPrefix ("/" ++ "ping.PingService" ++ "/" ++ "Ping") "/ping.PingService/" = "Ping" ∧
    HasPrefix "/echo.EchoService/Ping" "/ping.PingService/" = false ∧
    TrimPrefix "/echo.EchoService/Ping" "/ping.PingService/" = "/echo.EchoService/Ping" :=
  ⟨((mockInterceptor_strips_ping_service decodePingResponse pingService pingStore
      (PingRequest "hello" true)).1 "ping.PingService" "Ping" rfl).1,
   rfl,
   ((mockInterceptor_strips_ping_service decodePingResponse pingService pingStore
      (PingRequest "hello" true)).2.1 "/echo.EchoService/Ping" rfl).1⟩

/-- Counterexample to C6 as stated: for the service name `echo.EchoService` and the method
name `Ping`, nothing is stripped; the interceptor looks up the whole identifier and
fails, where a lookup of `Ping` answers with the hello/world record. -/
theorem mockInterceptor_other_service_not_stripped :
    TrimPrefix ("/" ++ "echo.EchoService" ++ "/" ++ "Ping") "/ping.PingService/" ≠ "Ping" ∧
    mockInterceptor decodePingResponse pingService pingStore (PingRequest "hello" true)
      ("/" ++ "echo.EchoService" ++ "/" ++ "Ping") =
      (none, some "did not find method=/echo.EchoService/Ping") ∧
    mockInterceptor decodePingResponse pingService pingStore (PingRequest "hello" true)
      ("/" ++ "ping.PingService" ++ "/" ++ "Ping") = (some { Pong := "world" }, none) :=
  ⟨by decide, by decide, by decide⟩

/-! ## Exactness of `DeepEqual` -/

theorem mapIndex_some_mem {α : Type} (m : List (String × α)) (k : String) (v : α)
    (h : mapIndex m k = some v) : (k, v) ∈ m := by
  induction m with
  | nil => simp [mapIndex] at h
  | cons kv rest ih =>
    obtain ⟨k₀, v₀⟩ := kv
    by_cases hk : k₀ = k
    · subst hk
      simp [mapIndex] at h
      subst h
      exact List.mem_cons_self _ _
    · simp [mapIndex, hk] at h
      exact List.mem_cons_of_mem _ (ih h)

theorem mapIndex_eq_none_iff {α : Type} (m : List (String × α)) (k : String) :
    mapIndex m k = none ↔ k ∉ mapKeys m := by
  induction m with
  | nil => simp [mapIndex, mapKeys]
  | cons kv rest ih =>
    obtain ⟨k₀, v₀⟩ := kv
    by_cases hk : k₀ = k
    · subst hk
      simp [mapIndex, mapKeys]
    · simp only [mapKeys] at ih
      simp [mapIndex, mapKeys, hk, Ne.symm hk, ih]

theorem mapIndex_of_mem {α : Type} (m : List (String × α)) (k : String) (v : α)
    (hnd : (mapKeys m).Nodup) (h : (k, v) ∈ m) : mapIndex m k = some v := by
  induction m with
  | nil => cases h
  | cons kv rest ih =>
    obtain ⟨k₀, v₀⟩ := kv
    simp only [mapKeys, List.map_cons, List.nodup_cons] at hnd
    rcases List.mem_cons.mp h with heq | hin
    · cases heq
      simp [mapIndex]
    · have hne : k₀ ≠ k := by
        intro hk
        subst hk
        exact hnd.1 (List.mem_map.mpr ⟨(k₀, v), hin, rfl⟩)
      simp only [mapIndex, hne, if_false]
      exact ih hnd.2 hin

theorem entriesDeepEqual_iff (a b : Fields) :
    entriesDeepEqual a b = true ↔
      ∀ k v, (k, v) ∈ a → ∃ w, mapIndex b k = some w ∧ valueDeepEqual v w = true := by
  induction a with
  | nil => simp [entriesDeepEqual]
  | cons kv rest ih =>
    obtain ⟨k₀, v₀⟩ := kv
    simp only [entriesDeepEqual, Bool.and_eq_true, ih, List.mem_cons, Prod.mk.injEq]
    constructor
    · rintro ⟨h0, hrest⟩ k v (⟨rfl, rfl⟩ | hin)
      · cases hb : mapIndex b k with
        | none => simp [hb] at h0
        | some w => exact ⟨w, rfl, by simpa [hb] using h0⟩
      · exact hrest k v hin
    · intro h
      refine ⟨?_, fun k v hin => h k v (Or.inr hin)⟩
      obtain ⟨w, hw, hv⟩ := h k₀ v₀ (Or.inl ⟨rfl, rfl⟩)
      simp [hw, hv]

theorem DeepEqual_some_iff (p r : Fields) :
    DeepEqual (some p) (some r) = true ↔
      p.length = r.length ∧
        ∀ k v, (k, v) ∈ p → ∃ w, mapIndex r k = some w ∧ valueDeepEqual v w = true := by
  simp only [DeepEqual, Bool.and_eq_true, beq_iff_eq, entriesDeepEqual_iff]

theorem DeepEqual_length_ne (p r : Fields) (h : p.length ≠ r.length) :
    DeepEqual (some p) (some r) = false := by
  cases hd : DeepEqual (some p) (some r) with
  | false => rfl
  | true => exact absurd ((DeepEqual_some_iff p r).mp hd).1 h

/-- C2. Matching is exact. For a pattern `p` with distinct keys and a mapping `r`: if `r` is
`p` with one more key, or `p` is `r` with one more key, `DeepEqual` is false; when
`DeepEqual` is true the two mappings have the same key set and, under every key,
values that are deeply equal; and a record whose pattern is not deeply equal to
the canonical mapping of the request is skipped by `mapMock`. -/
theorem DeepEqual_exact {Rsp : Type} (decode : Option Fields → Rsp → Rsp × Option String)
    (p r : Fields) (hp : (mapKeys p).Nodup) :
    (∀ k v, k ∉ mapKeys p → r.Perm ((k, v) :: p) → DeepEqual (some p) (some r) = false) ∧
    (∀ k v, k ∉ mapKeys r → p.Perm ((k, v) :: r) → DeepEqual (some p) (some r) = false) ∧
    (DeepEqual (some p) (some r) = true →
      (∀ k, k ∈ mapKeys p ↔ k ∈ mapKeys r) ∧
      ∀ k v, mapIndex p k = some v → ∃ w, mapIndex r k = some w ∧ valueDeepEqual v w = true) ∧
    (∀ (m : Mock) (rest : List Mock) (req : GoStruct) (rsp : Rsp),
      m.Request = some p → structsMap req = r → DeepEqual (some p) (some r) = false →
      mapMock decode (m :: rest) req rsp = mapMock decode rest req rsp) := by
  refine ⟨?_, ?_, ?_, ?_⟩
  · intro k v _ hperm
    apply DeepEqual_length_ne
    rw [hperm.length_eq]
    simp
  · intro k v _ hperm
    apply DeepEqual_length_ne
    rw [hperm.length_eq]
    simp
  · intro hd
    obtain ⟨hlen, hent⟩ := (DeepEqual_some_iff p r).mp hd
    have hsub : mapKeys p ⊆ mapKeys r := by
      intro k hk
      obtain ⟨⟨k', v⟩, hin, hkk⟩ := List.mem_map.mp hk
      simp only at hkk
      subst hkk
      obtain ⟨w, hw, _⟩ := hent k' v hin
      by_contra hnot
      rw [(mapIndex_eq_none_iff r k').mpr hnot] at hw
      cases hw
    have hperm : (mapKeys p).Perm (mapKeys r) :=
      (List.subperm_of_subset hp hsub).perm_of_length_le (by simp [mapKeys, hlen])
    refine ⟨fun k => hperm.mem_iff, ?_⟩
    intro k v hk
    exact hent k v (mapIndex_some_mem p k v hk)
  · intro m rest req rsp hm hr hd
    apply mapMock_cons_of_ne
    rw [hm, hr]
    exact hd

/-- Witness of C2: the hello pattern against a request mapping with one extra field. -/
theorem DeepEqual_exact_witness :
    (mapKeys ([("Ping", .string "hello")] : Fields)).Nodup ∧
    DeepEqual (some [("Ping", .string "hello")])
      (some [("Extra", .bool true), ("Ping", .string "hello")]) = false ∧
    DeepEqual (some [("Extra", .bool true), ("Ping", .string "hello")])
      (some [("Ping", .string "hello")]) = false :=
  ⟨by decide,
   (DeepEqual_exact decodePingResponse [("Ping", .string "hello")]
     [("Extra", .bool true), ("Ping", .string "hello")] (by decide)).1
     "Extra" (.bool true) (by decide) (List.Perm.refl _),
   (DeepEqual_exact decodePingResponse [("Extra", .bool true), ("Ping", .string "hello")]
     [("Ping", .string "hello")] (by decide)).2.1
     "Extra" (.bool true) (by decide) (List.Perm.refl _)⟩

/-- C7 (amended). Values are compared by `reflect.DeepEqual`, dynamic type first. Let the pattern
`p` (distinct keys) hold the float64 `n` under `k`, the form in which a number of a
mock file is loaded, and let `r` have as many keys as `p` and deeply equal values
under every other key of `p`. If `r` holds a float64 `x` under `k`, the record
matches exactly when `n == x` as float64; if `r` holds a value of any other type
under `k` (an int32, an int64, ...), the record does not match, whatever the
number. -/
theorem DeepEqual_number (p r : Fields) (k : String) (n : Nat)
    (hp : (mapKeys p).Nodup) (hk : mapIndex p k = some (.float64 n))
    (hlen : r.length = p.length)
    (hrest : ∀ k' v, k' ≠ k → mapIndex p k' = some v →
      ∃ w, mapIndex r k' = some w ∧ valueDeepEqual v w = true) :
    (∀ x, mapIndex r k = some (.float64 x) →
      DeepEqual (some p) (some r) = float64Eq n x) ∧
    (∀ w, mapIndex r k = some w → (∀ x, w ≠ .float64 x) →
      DeepEqual (some p) (some r) = false) := by
  constructor
  · intro x hx
    rw [Bool.eq_iff_iff, DeepEqual_some_iff]
    constructor
    · rintro ⟨_, hent⟩
      obtain ⟨w, hw, hv⟩ := hent k _ (mapIndex_some_mem p k _ hk)
      rw [hx] at hw
      cases hw
      simpa [valueDeepEqual] using hv
    · intro hf
      refine ⟨hlen.symm, ?_⟩
      intro k' v hin
      have hidx := mapIndex_of_mem p k' v hp hin
      by_cases hkk : k' = k
      · subst hkk
        rw [hk] at hidx
        cases hidx
        exact ⟨_, hx, by simpa [valueDeepEqual] using hf⟩
      · exact hrest k' v hkk hidx
  · intro w hw hnot
    cases hd : DeepEqual (some p) (some r) with
    | false => rfl
    | true =>
      obtain ⟨_, hent⟩ := (DeepEqual_some_iff p r).mp hd
      obtain ⟨w', hw', hv⟩ := hent k _ (mapIndex_some_mem p k _ hk)
      rw [hw] at hw'
      cases hw'
      cases w <;> simp [valueDeepEqual] at hv
      exact absurd rfl (hnot _)

/-- Witness of C7 (amended): the pattern holding 1.0 under `Count` against a float64 and an
int32 request value. -/
theorem DeepEqual_number_witness :
    (mapKeys ([("Count", .float64 4607182418800017408)] : Fields)).Nodup ∧
    DeepEqual (some [("Count", .float64 4607182418800017408)])
      (some [("Count", .float64 4607182418800017408)]) =
      float64Eq 4607182418800017408 4607182418800017408 ∧
    DeepEqual (some [("Count", .float64 4607182418800017408)])
      (some [("Count", .int32 1)]) = false :=
  ⟨by decide,
   (DeepEqual_number [("Count", .float64 4607182418800017408)]
     [("Count", .float64 4607182418800017408)] "Count" 4607182418800017408
     (by decide) rfl rfl
     (fun k' v hne h => by simp [mapIndex, Ne.symm hne] at h)).1 4607182418800017408 rfl,
   (DeepEqual_number [("Count", .float64 4607182418800017408)]
     [("Count", .int32 1)] "Count" 4607182418800017408
     (by decide) rfl rfl
     (fun k' v hne h => by simp [mapIndex, Ne.symm hne] at h)).2 (.int32 1) rfl
     (fun x h => by cases h)⟩

/-- Counterexample to C7 as stated: the pattern loaded from a file holding the number 1 under
`Count` and a request whose int32 field `Count` is 1. The two numbers are equal, the
canonical mapping holds the int32 under the same key, and the record does not
match: `mapMock` leaves the response untouched. -/
theorem DeepEqual_int32_mismatch :
    float64Int? 4607182418800017408 = some 1 ∧
    structsMap (countRequest 1) = [("Count", .int32 1)] ∧
    countRecord.Request = some [("Count", .float64 4607182418800017408)] ∧
    DeepEqual countRecord.Request (some (structsMap (countRequest 1))) = false ∧
    mapMock decodePingResponse [countRecord] (countRequest 1) { Pong := "" } =
      ({ Pong := "" }, none) :=
  ⟨by decide, rfl, rfl, by decide, rfl⟩

/-! ## `LoadMocks` -/

theorem parsedRecords_eq_none_iff {File : Type} (fs : FS File) (dir file : String) :
    parsedRecords fs dir file = none ↔
      ((∃ err, fs.Open (Join dir file) = .error err) ∨
        ∃ c err, fs.Open (Join dir file) = .ok c ∧ fs.Decode c = .error err) := by
  unfold parsedRecords
  cases ho : fs.Open (Join dir file) with
  | error e => simp
  | ok c =>
    cases hd : fs.Decode c with
    | error e => simp [hd]
    | ok m => simp [hd]

theorem parsedRecords_eq_some_iff {File : Type} (fs : FS File) (dir file : String)
    (recs : List Mock) :
    parsedRecords fs dir file = some recs ↔
      ∃ c, fs.Open (Join dir file) = .ok c ∧ fs.Decode c = .ok recs := by
  unfold parsedRecords
  cases ho : fs.Open (Join dir file) with
  | error e => simp
  | ok c =>
    cases hd : fs.Decode c with
    | error e => simp [hd]
    | ok m => simp [hd]

theorem loadLoop_cons {File : Type} (fs : FS File) (dir file : String) (rest : List String)
    (mocks : Store) (recs : List Mock) (h : parsedRecords fs dir file = some recs) :
    loadLoop fs dir (file :: rest) mocks =
      loadLoop fs dir rest (mapAssign mocks (TrimSuffix file (Ext file)) recs) := by
  obtain ⟨c, ho, hd⟩ := (parsedRecords_eq_some_iff fs dir file recs).mp h
  simp only [loadLoop, ho, hd]

theorem loadLoop_cons_fail {File : Type} (fs : FS File) (dir file : String) (rest : List String)
    (mocks : Store) (h : parsedRecords fs dir file = none) :
    (loadLoop fs dir (file :: rest) mocks).1 = none ∧
      (loadLoop fs dir (file :: rest) mocks).2 ≠ none := by
  rcases (parsedRecords_eq_none_iff fs dir file).mp h with ⟨e, ho⟩ | ⟨c, e, ho, hd⟩
  · simp [loadLoop, ho]
  · simp [loadLoop, ho, hd]

theorem loadLoop_fail {File : Type} (fs : FS File) (dir : String) (files : List String)
    (mocks : Store) (h : ∃ f ∈ files, parsedRecords fs dir f = none) :
    (loadLoop fs dir files mocks).1 = none ∧ (loadLoop fs dir files mocks).2 ≠ none := by
  induction files generalizing mocks with
  | nil => obtain ⟨f, hf, _⟩ := h; cases hf
  | cons file rest ih =>
    cases hp : parsedRecords fs dir file with
    | none => exact loadLoop_cons_fail fs dir file rest mocks hp
    | some recs =>
      rw [loadLoop_cons fs dir file rest mocks recs hp]
      apply ih
      obtain ⟨f, hf, hnone⟩ := h
      rcases List.mem_cons.mp hf with rfl | hin
      · rw [hp] at hnone; cases hnone
      · exact ⟨f, hin, hnone⟩

theorem loadLoop_ok {File : Type} (fs : FS File) (dir : String) (files : List String)
    (mocks : Store) (h : ∀ f ∈ files, parsedRecords fs dir f ≠ none) :
    ∃ store, loadLoop fs dir files mocks = (some store, none) ∧
      ∀ k, mapIndex store k =
        match files.reverse.find? (fun f => TrimSuffix f (Ext f) == k) with
        | some f => parsedRecords fs dir f
        | none => mapIndex mocks k := by
  induction files generalizing mocks with
  | nil => exact ⟨mocks, rfl, fun k => rfl⟩
  | cons file rest ih =>
    cases hp : parsedRecords fs dir file with
    | none => exact absurd hp (h file (List.mem_cons_self _ _))
    | some recs =>
      obtain ⟨store, hs, hk⟩ :=
        ih (mapAssign mocks (TrimSuffix file (Ext file)) recs)
          (fun f hf => h f (List.mem_cons_of_mem _ hf))
      refine ⟨store, by rw [loadLoop_cons fs dir file rest mocks recs hp]; exact hs, ?_⟩
      intro k
      rw [hk k, List.reverse_cons, List.find?_append]
      cases hfind : rest.reverse.find? (fun f => TrimSuffix f (Ext f) == k) with
      | some f => rfl
      | none =>
        simp only [Option.none_or, List.find?_cons, List.find?_nil, mapIndex_mapAssign]
        by_cases hst : TrimSuffix file (Ext file) = k
        · simp [hst, hp]
        · have hb : (TrimSuffix file (Ext file) == k) = false := by simpa using hst
          simp [hst, hb]

theorem loadLoop_total {File : Type} (fs : FS File) (dir : String) (files : List String)
    (mocks : Store) :
    ((loadLoop fs dir files mocks).1 = none ∧ (loadLoop fs dir files mocks).2 ≠ none ∧
        ∃ f ∈ files, parsedRecords fs dir f = none) ∨
    ((loadLoop fs dir files mocks).1 ≠ none ∧ (loadLoop fs dir files mocks).2 = none ∧
        ∀ f ∈ files, parsedRecords fs dir f ≠ none) := by
  by_cases h : ∃ f ∈ files, parsedRecords fs dir f = none
  · exact Or.inl ⟨(loadLoop_fail fs dir files mocks h).1, (loadLoop_fail fs dir files mocks h).2, h⟩
  · have h' : ∀ f ∈ files, parsedRecords fs dir f ≠ none := fun f hf hn => h ⟨f, hf, hn⟩
    obtain ⟨store, hs, _⟩ := loadLoop_ok fs dir files mocks h'
    exact Or.inr ⟨by simp [hs], by simp [hs], h'⟩

/-- C8. The function `LoadMocks` is all-or-nothing: if the directory cannot be listed, or some
entry cannot be opened or does not decode, the result is a nil store with a
non-nil error; a nil error comes with a non-nil store and only when the directory
was listed and every entry opened and decoded; a non-nil store comes with a nil
error. -/
theorem LoadMocks_all_or_nothing {File : Type} (fs : FS File) (dir : String) :
    ((∃ err, fs.ReadDir dir = .error err) →
      (LoadMocks fs dir).1 = none ∧ (LoadMocks fs dir).2 ≠ none) ∧
    (∀ files, fs.ReadDir dir = .ok files →
      (∃ f ∈ files, (∃ err, fs.Open (Join dir f) = .error err) ∨
        ∃ c err, fs.Open (Join dir f) = .ok c ∧ fs.Decode c = .error err) →
      (LoadMocks fs dir).1 = none ∧ (LoadMocks fs dir).2 ≠ none) ∧
    ((LoadMocks fs dir).2 = none →
      (LoadMocks fs dir).1 ≠ none ∧
      ∃ files, fs.ReadDir dir = .ok files ∧
        ∀ f ∈ files, ∃ c recs, fs.Open (Join dir f) = .ok c ∧ fs.Decode c = .ok recs) ∧
    ((LoadMocks fs dir).1 ≠ none → (LoadMocks fs dir).2 = none) := by
  refine ⟨?_, ?_, ?_, ?_⟩
  · rintro ⟨err, he⟩
    simp [LoadMocks, he]
  · rintro files hf ⟨f, hin, hfail⟩
    simp only [LoadMocks, hf]
    exact loadLoop_fail fs dir files [] ⟨f, hin, (parsedRecords_eq_none_iff fs dir f).mpr hfail⟩
  · intro hnil
    cases hr : fs.ReadDir dir with
    | error e => simp [LoadMocks, hr] at hnil
    | ok files =>
      simp only [LoadMocks, hr] at hnil ⊢
      rcases loadLoop_total fs dir files [] with ⟨_, h2, _⟩ | ⟨h1, _, h3⟩
      · exact absurd hnil h2
      · refine ⟨h1, files, rfl, ?_⟩
        intro f hf
        cases hp : parsedRecords fs dir f with
        | none => exact absurd hp (h3 f hf)
        | some recs =>
          obtain ⟨c, ho, hd⟩ := (parsedRecords_eq_some_iff fs dir f recs).mp hp
          exact ⟨c, recs, ho, hd⟩
  · intro hsome
    cases hr : fs.ReadDir dir with
    | error e => simp [LoadMocks, hr] at hsome
    | ok files =>
      simp only [LoadMocks, hr] at hsome ⊢
      rcases loadLoop_total fs dir files [] with ⟨h1, _, _⟩ | ⟨_, h2, _⟩
      · exact absurd h1 hsome
      · exact h2

/-- Witness of C8: `Ping.json` loads, `Pong.json` is truncated, and the load returns the nil
store with the decoding error. -/
theorem LoadMocks_all_or_nothing_witness :
    brokenFS.ReadDir "mocks" = .ok ["Ping.json", "Pong.json"] ∧
    parsedRecords brokenFS "mocks" "Ping.json" = some [helloWorld] ∧
    (LoadMocks brokenFS "mocks").1 = none ∧ (LoadMocks brokenFS "mocks").2 ≠ none ∧
    LoadMocks brokenFS "mocks" =
      (none, some "failed to decode mock with file=Pong.json: unexpected end of JSON input") :=
  ⟨rfl, rfl,
   ((LoadMocks_all_or_nothing brokenFS "mocks").2.1 ["Ping.json", "Pong.json"] rfl
     ⟨"Pong.json", by decide, Or.inr ⟨"[", "unexpected end of JSON input", rfl, rfl⟩⟩).1,
   ((LoadMocks_all_or_nothing brokenFS "mocks").2.1 ["Ping.json", "Pong.json"] rfl
     ⟨"Pong.json", by decide, Or.inr ⟨"[", "unexpected end of JSON input", rfl, rfl⟩⟩).2,
   rfl⟩

theorem extLoop_dot (e b acc : List Char) (h : ∀ c ∈ e, c ≠ '/' ∧ c ≠ '.') :
    extLoop (e ++ '.' :: b) acc = '.' :: (e.reverse ++ acc) := by
  induction e generalizing acc with
  | nil => simp [extLoop]
  | cons c e ih =>
    have hc := h c (List.mem_cons_self _ _)
    have hrec := ih (c :: acc) (fun c' hc' => h c' (List.mem_cons_of_mem _ hc'))
    rw [List.cons_append]
    simp only [extLoop, hc.1, hc.2, if_false]
    rw [hrec]
    simp

theorem Ext_of_dot (base ext : String) (h : ∀ c ∈ ext.data, c ≠ '/' ∧ c ≠ '.') :
    Ext (base ++ "." ++ ext) = "." ++ ext := by
  have hd : (base ++ "." ++ ext).data = base.data ++ '.' :: ext.data := by
    simp [String.data_append]
  unfold Ext
  rw [hd, List.reverse_append, List.reverse_cons, List.append_assoc]
  have := extLoop_dot ext.data.reverse base.data.reverse [] (by simpa using h)
  simp only [List.singleton_append] 
  rw [this]
  apply String.ext
  simp [String.data_append]

theorem TrimSuffix_append (base suf : String) : TrimSuffix (base ++ suf) suf = base := by
  have h : HasSuffix (base ++ suf) suf = true := by
    simp [HasSuffix, String.data_append]
  simp [TrimSuffix, h, String.data_append]

theorem stem_of_dot (base ext : String) (h : ∀ c ∈ ext.data, c ≠ '/' ∧ c ≠ '.') :
    TrimSuffix (base ++ "." ++ ext) (Ext (base ++ "." ++ ext)) = base := by
  rw [Ext_of_dot base ext h, String.append_assoc, TrimSuffix_append]

theorem find?_of_nodup_map {α β : Type} [DecidableEq β] (g : α → β) (l : List α) (a : α)
    (hnd : (l.map g).Nodup) (ha : a ∈ l) : l.find? (fun x => g x == g a) = some a := by
  induction l with
  | nil => cases ha
  | cons x rest ih =>
    simp only [List.map_cons, List.nodup_cons] at hnd
    rcases List.mem_cons.mp ha with rfl | hin
    · simp [List.find?_cons]
    · have hne : g x ≠ g a := by
        intro hx
        exact hnd.1 (hx ▸ List.mem_map_of_mem g hin)
      have hb : (g x == g a) = false := by simpa using hne
      rw [List.find?_cons, hb]
      exact ih hnd.2 hin

/-- C9 (amended). On a successful load every entry of the directory opened and decoded, and the store
maps each key to the records of the last entry, in listing order, whose name
without its extension is that key; the keys of the store are exactly those
derived names; when the derived names of the entries are pairwise distinct, every
entry is retrievable under its derived name with exactly the records parsed from
it; and the derived name of a name ending in a dot and an extension is the part
before that dot. -/
theorem LoadMocks_store {File : Type} (fs : FS File) (dir : String) (store : Store)
    (h : LoadMocks fs dir = (some store, none)) :
    ∃ files, fs.ReadDir dir = .ok files ∧
      (∀ f ∈ files, ∃ recs, parsedRecords fs dir f = some recs) ∧
      (∀ k, mapIndex store k =
        match files.reverse.find? (fun f => TrimSuffix f (Ext f) == k) with
        | some f => parsedRecords fs dir f
        | none => none) ∧
      (∀ k, mapIndex store k ≠ none ↔ ∃ f ∈ files, TrimSuffix f (Ext f) = k) ∧
      ((files.map (fun f => TrimSuffix f (Ext f))).Nodup →
        ∀ f ∈ files, mapIndex store (TrimSuffix f (Ext f)) = parsedRecords fs dir f) ∧
      (∀ base ext : String, (∀ c ∈ ext.data, c ≠ '/' ∧ c ≠ '.') →
        TrimSuffix (base ++ "." ++ ext) (Ext (base ++ "." ++ ext)) = base) := by
  cases hr : fs.ReadDir dir with
  | error e => simp [LoadMocks, hr] at h
  | ok files =>
    simp only [LoadMocks, hr] at h
    have hall : ∀ f ∈ files, parsedRecords fs dir f ≠ none := by
      rcases loadLoop_total fs dir files [] with ⟨h1, _, _⟩ | ⟨_, _, h3⟩
      · rw [h] at h1; cases h1
      · exact h3
    obtain ⟨store', hs, hk⟩ := loadLoop_ok fs dir files [] hall
    rw [h] at hs
    cases hs
    have hsome : ∀ f ∈ files, ∃ recs, parsedRecords fs dir f = some recs := by
      intro f hf
      cases hp : parsedRecords fs dir f with
      | none => exact absurd hp (hall f hf)
      | some recs => exact ⟨recs, rfl⟩
    have hk' : ∀ k, mapIndex store k =
        match files.reverse.find? (fun f => TrimSuffix f (Ext f) == k) with
        | some f => parsedRecords fs dir f
        | none => none := by
      intro k
      rw [hk k]
      cases files.reverse.find? (fun f => TrimSuffix f (Ext f) == k) <;> rfl
    refine ⟨files, rfl, hsome, hk', ?_, ?_, stem_of_dot⟩
    · intro k
      rw [hk' k]
      cases hfind : files.reverse.find? (fun f => TrimSuffix f (Ext f) == k) with
      | none =>
        simp only [ne_eq, not_true_eq_false, false_iff, not_exists, not_and]
        intro f hf hst
        have := List.find?_eq_none.mp hfind f (List.mem_reverse.mpr hf)
        simp [hst] at this
      | some f =>
        have hmem : f ∈ files := List.mem_reverse.mp (List.mem_of_find?_eq_some hfind)
        have hst : TrimSuffix f (Ext f) = k := by
          simpa using List.find?_some hfind
        simp only [ne_eq]
        exact ⟨fun _ => ⟨f, hmem, hst⟩, fun _ => hall f hmem⟩
    · intro hnd f hf
      rw [hk' (TrimSuffix f (Ext f))]
      have := find?_of_nodup_map (fun f => TrimSuffix f (Ext f)) files.reverse f
        (by rw [List.map_reverse]; exact List.nodup_reverse.mpr hnd) (List.mem_reverse.mpr hf)
      simp only at this
      rw [this]

/-- Witness of C9 (amended): the directory holding only `Ping.json` loads to the scenario store. -/
theorem LoadMocks_store_witness :
    LoadMocks mocksFS "mocks" = (some pingStore, none) ∧
    ∃ files, mocksFS.ReadDir "mocks" = .ok files ∧
      (∀ f ∈ files, ∃ recs, parsedRecords mocksFS "mocks" f = some recs) ∧
      (∀ k, mapIndex pingStore k ≠ none ↔ ∃ f ∈ files, TrimSuffix f (Ext f) = k) :=
  ⟨rfl, (LoadMocks_store mocksFS "mocks" pingStore rfl).imp
    (fun _ h => ⟨h.1, h.2.1, h.2.2.2.1⟩)⟩

/-- Counterexample to C9 as stated: a directory with `Ping.json` and `Ping.txt` loads without error;
both names derive the key `Ping`, the store keeps the records of `Ping.txt` under it,
and the records parsed from `Ping.json` are not in the store. -/
theorem LoadMocks_colliding_names :
    collidingFS.ReadDir "mocks" = .ok ["Ping.json", "Ping.txt"] ∧
    LoadMocks collidingFS "mocks" = (some [("Ping", [])], none) ∧
    TrimSuffix "Ping.json" (Ext "Ping.json") = "Ping" ∧
    parsedRecords collidingFS "mocks" "Ping.json" = some [helloWorld] ∧
    mapIndex ([("Ping", [])] : Store) (TrimSuffix "Ping.json" (Ext "Ping.json")) ≠
      parsedRecords collidingFS "mocks" "Ping.json" :=
  ⟨rfl, rfl, by decide, rfl, fun h => by cases h⟩

end GrpcMock
